import Mathlib

/-!
Verification of the ITSM incident-analytics engine (tools/tools.py).

The engine is embedded shallowly:
* an incident row is a record of the columns the tools read; optional or
  possibly-unparseable columns (`Handle_Time_hrs`, `Open_Time__`) are `Option`
  values, `none` standing for NaN / missing / unparseable input;
* durations are exact rational numbers of hours (a `timedelta` value is
  identified with its `total_seconds() / 3600`);
* a Python float that may be `float('inf')` (the breach ratio) is the
  two-constructor type ` Ratio` below;
* `round(x, 2)` is rounding half-to-even at two decimals, on rationals;
* the debug statement in `detect_priority_inconsistencies` indexes row 1 of
  the frame whenever it is nonempty, so the embedding returns `Except` and
  errors exactly when the snapshot has a single row.
-/

/-- An incident record, one row of the DataFrame handed to the tools.
`Handle_Time_hrs` is `none` when the cell is NaN (`pd.notna` fails);
`Open_Time__` holds the `pd.to_datetime` parse result as an abstract integer
timestamp, `none` when the cell is missing or unparseable. -/
structure Incident where
  Incident_ID : ℤ
  Impact_enc : ℤ
  Urgency_enc : ℤ
  Priority_enc : ℤ
  Handle_Time_hrs : Option ℚ
  Open_Time__ : Option ℤ
deriving DecidableEq

/-- The SLA definition table: `sla_definitions` keyed by the serialized
pair. The source serializes a key `(impact, urgency)` to the string
literal of the two integers joined by an underscore, which is injective on
integer pairs, so the table is modelled as a map on the pairs themselves;
a value is the duration in hours (a zero value models `timedelta(0)`). -/
abbrev SLATable := ℤ × ℤ → Option ℚ

/-- A Python float that is either an ordinary (rational) value or
`float('inf')`, as produced by the breach-ratio computation. -/
inductive Ratio where
  | fin : ℚ → Ratio
  | inf : Ratio
deriving DecidableEq

/-- Comparison `r > c` of such a float against a finite bound. -/
def Ratio.gtQ : Ratio → ℚ → Bool
  | .fin q, c => decide (c < q)
  | .inf, _ => true

/-- Comparison `r >= c` of such a float against a finite bound. -/
def Ratio.geQ : Ratio → ℚ → Bool
  | .fin q, c => decide (c ≤ q)
  | .inf, _ => true

/-- Round half to even, the rounding mode of Python's builtin `round`. -/
def roundHalfEven (q : ℚ) : ℤ :=
  if q - ⌊q⌋ < 1/2 then ⌊q⌋
  else if 1/2 < q - ⌊q⌋ then ⌊q⌋ + 1
  else if ⌊q⌋ % 2 = 0 then ⌊q⌋ else ⌊q⌋ + 1

/-- `round(q, 2)`: round half to even at two decimal places. -/
def roundTo2 (q : ℚ) : ℚ := (roundHalfEven (q * 100) : ℚ) / 100

/-- `round(r, 2)` on a possibly infinite float: `round(float('inf'), 2)`
is still `inf`. -/
def Ratio.roundTo2R : Ratio → Ratio
  | .fin q => .fin (roundTo2 q)
  | .inf => .inf

/-- Line 106 of tools.py:
`breach_ratio = handle_time / sla_hours if sla_hours > 0 else float('inf')`. -/
def breachRatioOf (handle_time sla_hours : ℚ) : Ratio :=
  if 0 < sla_hours then .fin (handle_time / sla_hours) else .inf

/-- Lines 108-115 of tools.py: severity of a breach from its ratio
(`1.5 = 3/2`, `1.2 = 6/5` exactly). -/
def ratioSeverity (r : Ratio) : String :=
  if Ratio.gtQ r 2 then "Critical"
  else if Ratio.gtQ r (3/2) then "High"
  else if Ratio.gtQ r (6/5) then "Medium"
  else "Low"

/-- One entry of the `breaches` indicator list of `check_sla_breach`. -/
structure BreachIndicator where
  Incident_ID : ℤ
  breach : Bool
  Breach_Time : Option ℤ
deriving DecidableEq

/-- One entry of the `breached_details` list of `check_sla_breach`. -/
structure BreachDetail where
  Incident_ID : ℤ
  Priority_enc : ℤ
  Impact_enc : ℤ
  Urgency_enc : ℤ
  Handle_Time_hrs : ℚ
  SLA_Duration_hrs : ℚ
  Breach_Time : Option ℤ
  Severity : String
  Breach_Ratio : Ratio
deriving DecidableEq

/-- The dictionary returned by `check_sla_breach`. -/
structure SLAReport where
  breaches : List BreachIndicator
  breached_details : List BreachDetail
  total_incidents_analyzed : ℕ
  total_sla_breaches : ℕ
  sla_breach_percentage : ℚ
deriving DecidableEq

/-- Lines 117-127 of tools.py: the breach-detail record appended for a
breached incident. -/
def mkDetail (row : Incident) (open_time : ℤ) (handle_time sla_hours : ℚ) :
    BreachDetail :=
  { Incident_ID := row.Incident_ID
    Priority_enc := row.Priority_enc
    Impact_enc := row.Impact_enc
    Urgency_enc := row.Urgency_enc
    Handle_Time_hrs := handle_time
    SLA_Duration_hrs := sla_hours
    Breach_Time := some open_time
    Severity := ratioSeverity (breachRatioOf handle_time sla_hours)
    Breach_Ratio := Ratio.roundTo2R (breachRatioOf handle_time sla_hours) }

/-- Lines 85-133 of tools.py, the body of the row loop of
`check_sla_breach`. The nested matches render the short-circuit guard
`if pd.notna(handle_time) and open_time and sla_duration:`; note that a
zero `timedelta` is falsy in Python, hence the `sla_duration = 0` test.
`none` means the row is exempt: nothing is appended for it. -/
def evalRow (sla : SLATable) (row : Incident) :
    Option (BreachIndicator × Option BreachDetail) :=
  match row.Handle_Time_hrs with
  | none => none
  | some handle_time =>
    match row.Open_Time__ with
    | none => none
    | some open_time =>
      match sla (row.Impact_enc, row.Urgency_enc) with
      | none => none
      | some sla_duration =>
        if sla_duration = 0 then none
        else if sla_duration < handle_time then
          some (⟨row.Incident_ID, true, some open_time⟩,
            some (mkDetail row open_time handle_time sla_duration))
        else
          some (⟨row.Incident_ID, false, some open_time⟩, none)

/-- Lines 70-143 of tools.py: `check_sla_breach`. The indicator list gets
one entry per non-exempt row, the detail list one entry per breached row,
and the breach counter increments exactly when a detail is appended. -/
def check_sla_breach (rows : List Incident) (sla : SLATable) : SLAReport :=
  let evals := rows.filterMap (evalRow sla)
  let breached_details := evals.filterMap Prod.snd
  { breaches := evals.map Prod.fst
    breached_details := breached_details
    total_incidents_analyzed := rows.length
    total_sla_breaches := breached_details.length
    sla_breach_percentage :=
      if 0 < rows.length then
        (breached_details.length : ℚ) / (rows.length : ℚ) * 100
      else 0 }

/-- The guard of line 100 of tools.py as a predicate on a row: the row is
evaluated (non-exempt) iff its handle time is present, its open time
parses, and its (impact, urgency) pair maps to a nonzero SLA duration. -/
def slaEligible (sla : SLATable) (r : Incident) : Bool :=
  r.Handle_Time_hrs.isSome && r.Open_Time__.isSome &&
    (match sla (r.Impact_enc, r.Urgency_enc) with
     | some d => decide (d ≠ 0)
     | none => false)

/-- The breach comparison of line 101 of tools.py as a predicate on a row:
the handle time strictly exceeds the applicable SLA duration. -/
def slaExceeded (sla : SLATable) (r : Incident) : Bool :=
  match r.Handle_Time_hrs, sla (r.Impact_enc, r.Urgency_enc) with
  | some h, some d => decide (d < h)
  | _, _ => false

/-- The unrounded breach ratio reconstructed from the fields stored in a
breach-detail record (the record itself stores the rounded value). -/
def unroundedOf (d : BreachDetail) : Ratio :=
  breachRatioOf d.Handle_Time_hrs d.SLA_Duration_hrs

/-- One entry of the list returned by `detect_priority_inconsistencies`. -/
structure Inconsistency where
  Incident_ID : ℤ
  Impact : ℤ
  Urgency : ℤ
  Priority : ℤ
  Description : String
  Detected_At : Option ℤ
  Severity : String
deriving DecidableEq

/-- Lines 167-169 of tools.py: the secondary severity rule for a flagged
inconsistency. -/
def inconsistencySeverity (impact urgency : ℤ) : String :=
  if impact = 3 ∧ urgency = 3 then "High"
  else if (impact = 3 ∧ urgency = 2) ∨ (impact = 2 ∧ urgency = 3) then "Medium"
  else "Low"

/-- Lines 156-179 of tools.py, the body of the row loop of
`detect_priority_inconsistencies`: a record is appended iff the row matches
one of the two fixed rule patterns. -/
def flagRow (row : Incident) : Option Inconsistency :=
  if (row.Impact_enc = 3 ∧ row.Urgency_enc = 1 ∧ row.Priority_enc ≠ 1) ∨
      (row.Impact_enc = 1 ∧ row.Urgency_enc = 3 ∧ row.Priority_enc ≠ 3) then
    some
      { Incident_ID := row.Incident_ID
        Impact := row.Impact_enc
        Urgency := row.Urgency_enc
        Priority := row.Priority_enc
        Description := "Potential misalignment between Impact, Urgency, and Priority."
        Detected_At := row.Open_Time__
        Severity := inconsistencySeverity row.Impact_enc row.Urgency_enc }
  else none

/-- Lines 146-180 of tools.py: `detect_priority_inconsistencies`. The
debug statement at line 154 evaluates `df.iloc[1]` whenever the frame is
nonempty, which raises `IndexError` exactly when the snapshot holds a
single row; otherwise the row loop appends one record per flagged row. -/
def detect_priority_inconsistencies (rows : List Incident) :
    Except String (List Inconsistency) :=
  if rows.length = 1 then
    Except.error "single positional indexer is out-of-bounds"
  else
    Except.ok (rows.filterMap flagRow)

/-- The dictionary returned by `sla_breach_summary`. -/
structure BreachSummary where
  total_incidents : ℕ
  total_breaches : ℕ
  breach_percentage : ℚ
deriving DecidableEq

/-- Lines 183-195 of tools.py: `sla_breach_summary`. -/
def sla_breach_summary (breaches : List BreachIndicator) : BreachSummary :=
  { total_incidents := breaches.length
    total_breaches := breaches.countP (fun b => b.breach)
    breach_percentage :=
      if 0 < breaches.length then
        (breaches.countP (fun b => b.breach) : ℚ) / (breaches.length : ℚ) * 100
      else 0 }

/-- One row of the frame returned by `compute_weekly_trend`. -/
structure WeekRow where
  week : ℤ
  incident_count : ℕ
  rolling_avg : ℚ
  spike : Bool
deriving DecidableEq

/-- The grouping step of `compute_weekly_trend` (line 39 of tools.py):
the input is the list of week keys, one per incident (the
`to_period("W").start_time` of its parsed timestamp, abstracted as an
integer that orders weeks chronologically); `groupby` produces the
distinct keys in ascending order, each with its row count. -/
def weeklyCounts (weeks : List ℤ) : List (ℤ × ℕ) :=
  (weeks.dedup.insertionSort (· ≤ ·)).map (fun w => (w, weeks.count w))

/-- Line 40 of tools.py: `rolling(window=3, min_periods=1).mean()` at
position `i` of the count column: the mean of the window of the current
and up to two preceding entries. -/
def rollingAvg3 (counts : List ℕ) (i : ℕ) : ℚ :=
  let window := (counts.take (i + 1)).drop (i - 2)
  (window.sum : ℚ) / (window.length : ℚ)

/-- Lines 40-41 of tools.py applied down the bucket list: each bucket at
running index `i` gets its rolling average and the spike flag
`incident_count > rolling_avg * 1.5`. -/
def trendRowsFrom (counts : List ℕ) (i : ℕ) : List (ℤ × ℕ) → List WeekRow
  | [] => []
  | p :: rest =>
    ⟨p.1, p.2, rollingAvg3 counts i,
      decide (rollingAvg3 counts i * (3/2) < (p.2 : ℚ))⟩ ::
      trendRowsFrom counts (i + 1) rest

/-- Lines 35-42 of tools.py: `compute_weekly_trend` on the week keys of a
snapshot. -/
def compute_weekly_trend (weeks : List ℤ) : List WeekRow :=
  let wc := weeklyCounts weeks
  trendRowsFrom (wc.map Prod.snd) 0 wc

/-- Concrete snapshot for C1: one incident, impact 3, urgency 1, handle
time 3 h, against an SLA of 1 h for the (3, 1) pair (ratio 3, Critical). -/
def rowsC1 : List Incident := [⟨1, 3, 1, 2, some 3, some 0⟩]

/-- SLA table for C1: (3, 1) allows 1 hour. -/
def slaC1 : SLATable := fun p => if p = (3, 1) then some 1 else none

/-- The breach-detail record produced on `rowsC1` and `slaC1`. -/
def dC1 : BreachDetail := ⟨1, 2, 3, 1, 3, 1, some 0, "Critical", .fin 3⟩

/-- Concrete exempt incident for C2/C10: its (0, 0) pair is absent from
the table. -/
def rC2exempt : Incident := ⟨1, 0, 0, 1, some 1, some 0⟩

/-- Concrete breached incident for C2/C10: handle 1 h against a 0.25 h
SLA. -/
def rC2breach : Incident := ⟨2, 1, 1, 1, some 1, some 0⟩

/-- Snapshot for C2/C10: one exempt and one breached incident. -/
def rowsC2 : List Incident := [rC2exempt, rC2breach]

/-- SLA table for C2/C10: only (1, 1) is defined, at 0.25 hours. -/
def slaC2 : SLATable := fun p => if p = (1, 1) then some (1/4) else none

/-- An incident matching the first inconsistency rule pattern:
impact 3, urgency 1, priority 2. -/
def row312 : Incident := ⟨1, 3, 1, 2, some 3, some 0⟩

/-- A two-incident snapshot containing `row312`, so the row loop of
`detect_priority_inconsistencies` is actually reached. -/
def rowsC7 : List Incident := [row312, ⟨2, 2, 2, 2, some 1, some 0⟩]

/-- The inconsistency record produced for `row312`. -/
def incC7 : Inconsistency :=
  ⟨1, 3, 1, 2, "Potential misalignment between Impact, Urgency, and Priority.",
    some 0, "Low"⟩

/-- Incident for C5: (1, 1) pair, handle time 1 h, open time present. -/
def rowC5 : Incident := ⟨7, 1, 1, 1, some 1, some 0⟩

/-- SLA table for C5: the (1, 1) pair is defined with a ZERO duration. -/
def slaC5 : SLATable := fun p => if p = (1, 1) then some 0 else none

/-- Snapshot for C6: handle time 1.004 h against a 1 h SLA, a breach with
ratio 1.004 whose two-decimal rounding is exactly 1.0. -/
def rowsC6 : List Incident := [⟨9, 1, 1, 1, some (251/250), some 0⟩]

/-- SLA table for C6: (1, 1) allows 1 hour. -/
def slaC6 : SLATable := fun p => if p = (1, 1) then some 1 else none

/-- The breach-detail record produced on `rowsC6` and `slaC6`: severity
Low, recorded two-decimal ratio exactly 1. -/
def dC6 : BreachDetail := ⟨9, 1, 1, 1, 251/250, 1, some 0, "Low", .fin 1⟩

/-- Week keys for C8: the scenario snapshot whose chronologically ordered
weekly bucket counts are 10, 12, 11, 40. -/
def wksC8 : List ℤ :=
  List.replicate 10 0 ++ List.replicate 12 1 ++
    List.replicate 11 2 ++ List.replicate 40 3

/-- A single ordinary incident (matching no inconsistency rule) for C9. -/
def rowC9 : Incident := ⟨3, 2, 2, 2, some 1, some 0⟩

/-- The boundary table of severity tiers from the spec, as a predicate
relating a severity string to a breach ratio: Critical iff ratio > 2,
High iff 1.5 < ratio <= 2, Medium iff 1.2 < ratio <= 1.5, Low iff
ratio <= 1.2; and the boundary points 1.5 and 2 land on Medium and High. -/
def boundaryOK (sev : String) (r : Ratio) : Prop :=
  (sev = "Critical" ↔ Ratio.gtQ r 2 = true)
  ∧ (sev = "High" ↔ (Ratio.gtQ r (3/2) && !(Ratio.gtQ r 2)) = true)
  ∧ (sev = "Medium" ↔ (Ratio.gtQ r (6/5) && !(Ratio.gtQ r (3/2))) = true)
  ∧ (sev = "Low" ↔ Ratio.gtQ r (6/5) = false)
  ∧ (r = .fin (3/2) → sev = "Medium")
  ∧ (r = .fin 2 → sev = "High")

/-- A row yields an indicator entry exactly when the guard of line 100
holds for it. -/
theorem evalRow_isSome (sla : SLATable) (r : Incident) :
    (evalRow sla r).isSome = slaEligible sla r := by
  rcases hh : r.Handle_Time_hrs with _ | h
  · simp [evalRow, slaEligible, hh]
  · rcases ho : r.Open_Time__ with _ | t
    · simp [evalRow, slaEligible, hh, ho]
    · rcases hs : sla (r.Impact_enc, r.Urgency_enc) with _ | d
      · simp [evalRow, slaEligible, hh, ho, hs]
      · by_cases h0 : d = 0
        · simp [evalRow, slaEligible, hh, ho, hs, h0]
        · by_cases hlt : d < h <;>
            simp [evalRow, slaEligible, hh, ho, hs, h0, hlt]

/-- A row yields a breach-detail entry exactly when it is non-exempt and
its handle time exceeds its SLA duration. -/
theorem evalRow_detail_isSome (sla : SLATable) (r : Incident) :
    ((evalRow sla r).bind Prod.snd).isSome =
      (slaEligible sla r && slaExceeded sla r) := by
  rcases hh : r.Handle_Time_hrs with _ | h
  · simp [evalRow, slaEligible, slaExceeded, hh]
  · rcases ho : r.Open_Time__ with _ | t
    · simp [evalRow, slaEligible, slaExceeded, hh, ho]
    · rcases hs : sla (r.Impact_enc, r.Urgency_enc) with _ | d
      · simp [evalRow, slaEligible, slaExceeded, hh, ho, hs]
      · by_cases h0 : d = 0
        · simp [evalRow, slaEligible, slaExceeded, hh, ho, hs, h0]
        · by_cases hlt : d < h <;>
            simp [evalRow, slaEligible, slaExceeded, hh, ho, hs, h0, hlt]

/-- In every entry the row loop emits, the indicator's breach flag is
true exactly when a detail record was emitted alongside it. -/
theorem evalRow_breach_eq_detail (sla : SLATable) (r : Incident)
    (pr : BreachIndicator × Option BreachDetail)
    (hpr : evalRow sla r = some pr) :
    pr.1.breach = pr.2.isSome := by
  rcases hh : r.Handle_Time_hrs with _ | h <;>
    rcases ho : r.Open_Time__ with _ | t <;>
      rcases hs : sla (r.Impact_enc, r.Urgency_enc) with _ | d <;>
        simp [evalRow, hh, ho, hs] at hpr
  by_cases h0 : d = 0
  · simp [h0] at hpr
  · by_cases hlt : d < h <;> simp [h0, hlt] at hpr <;> simp [← hpr]

/-- Every detail record the row loop emits is `mkDetail` of its row, for
a nonzero SLA duration strictly below the handle time. -/
theorem evalRow_detail_inv (sla : SLATable) (r : Incident)
    (pr : BreachIndicator × Option BreachDetail) (d : BreachDetail)
    (hpr : evalRow sla r = some pr) (hd : pr.2 = some d) :
    ∃ t h s, s ≠ 0 ∧ s < h ∧ d = mkDetail r t h s := by
  rcases hh : r.Handle_Time_hrs with _ | h <;>
    rcases ho : r.Open_Time__ with _ | t <;>
      rcases hs : sla (r.Impact_enc, r.Urgency_enc) with _ | s <;>
        simp [evalRow, hh, ho, hs] at hpr
  by_cases h0 : s = 0
  · simp [h0] at hpr
  · by_cases hlt : s < h
    · refine ⟨t, h, s, h0, hlt, ?_⟩
      simp [h0, hlt] at hpr
      rw [← hpr] at hd
      simpa using hd.symm
    · simp [h0, hlt] at hpr
      rw [← hpr] at hd
      simp at hd

/-- Length of a `filterMap` as a count of the rows it keeps. -/
theorem filterMap_length_countP {α β : Type} (f : α → Option β)
    (l : List α) :
    (l.filterMap f).length = l.countP (fun a => (f a).isSome) := by
  induction l with
  | nil => rfl
  | cons a rest ih =>
    rcases hf : f a with _ | b <;>
      simp [List.filterMap_cons, hf, List.countP_cons, ih]

/-- The indicator list of the report has one entry per non-exempt row. -/
theorem check_breaches_length (rows : List Incident) (sla : SLATable) :
    (check_sla_breach rows sla).breaches.length =
      rows.countP (slaEligible sla) := by
  have hfun : (fun a => (evalRow sla a).isSome) = slaEligible sla :=
    funext (fun a => evalRow_isSome sla a)
  simp [check_sla_breach, filterMap_length_countP, hfun]

/-- The breach counter of the report counts the rows that are non-exempt
and whose handle time exceeds their SLA duration. -/
theorem check_total_breaches (rows : List Incident) (sla : SLATable) :
    (check_sla_breach rows sla).total_sla_breaches =
      rows.countP (fun r => slaEligible sla r && slaExceeded sla r) := by
  have hfun : (fun a => ((evalRow sla a).bind Prod.snd).isSome) =
      (fun r => slaEligible sla r && slaExceeded sla r) :=
    funext (fun a => evalRow_detail_isSome sla a)
  simp [check_sla_breach, List.filterMap_filterMap, filterMap_length_countP,
    hfun]

/-- Counting the true breach flags over the indicator list gives back the
breach counter. -/
theorem check_countP_breach (rows : List Incident) (sla : SLATable) :
    (check_sla_breach rows sla).breaches.countP (fun b => b.breach) =
      (check_sla_breach rows sla).total_sla_breaches := by
  show ((rows.filterMap (evalRow sla)).map Prod.fst).countP (fun b => b.breach) =
    ((rows.filterMap (evalRow sla)).filterMap Prod.snd).length
  induction rows with
  | nil => rfl
  | cons r rest ih =>
    rcases hev : evalRow sla r with _ | pr
    · simp [List.filterMap_cons, hev, ih]
    · have hb := evalRow_breach_eq_detail sla r pr hev
      rcases hd : pr.2 with _ | d
      · rw [hd] at hb
        simp only [Option.isSome_none] at hb
        simp [List.filterMap_cons, hev, List.countP_cons, hb, hd, ih]
      · rw [hd] at hb
        simp only [Option.isSome_some] at hb
        simp [List.filterMap_cons, hev, List.countP_cons, hb, hd, ih]

/-- Rounding to two decimals cannot take a value strictly above 1 below
1. -/
theorem one_le_roundTo2 {q : ℚ} (h : 1 < q) : 1 ≤ roundTo2 q := by
  have h100 : (100 : ℚ) ≤ q * 100 := by nlinarith
  have hfl : (100 : ℤ) ≤ ⌊q * 100⌋ := by
    rw [Int.le_floor]
    exact_mod_cast h100
  have hr : (100 : ℤ) ≤ roundHalfEven (q * 100) := by
    unfold roundHalfEven
    split_ifs <;> omega
  unfold roundTo2
  rw [le_div_iff₀ (by norm_num : (0:ℚ) < 100)]
  have hc : (100 : ℚ) ≤ (roundHalfEven (q * 100) : ℚ) := by
    exact_mod_cast hr
  linarith

/-- Monotonicity of the strict comparison against a possibly infinite
ratio. -/
theorem gtQ_of_le {r : Ratio} {c c2 : ℚ} (hc : c ≤ c2)
    (h : Ratio.gtQ r c2 = true) : Ratio.gtQ r c = true := by
  cases r with
  | inf => rfl
  | fin q =>
    simp only [Ratio.gtQ, decide_eq_true_eq] at h ⊢
    exact lt_of_le_of_lt hc h

/-- The severity assignment of lines 108-115 realizes the boundary table
of the spec, boundary points included. -/
theorem ratioSeverity_boundaryOK (r : Ratio) :
    boundaryOK (ratioSeverity r) r := by
  unfold boundaryOK ratioSeverity
  by_cases h2 : Ratio.gtQ r 2 = true
  · have h32 : Ratio.gtQ r (3/2) = true := gtQ_of_le (by norm_num) h2
    have h65 : Ratio.gtQ r (6/5) = true := gtQ_of_le (by norm_num) h2
    refine ⟨by simp [h2], by simp [h2, h32], by simp [h2, h32, h65], by simp [h2, h65], ?_, ?_⟩
    · rintro rfl
      exact absurd h2 (by norm_num [Ratio.gtQ])
    · rintro rfl
      exact absurd h2 (by norm_num [Ratio.gtQ])
  · by_cases h32 : Ratio.gtQ r (3/2) = true
    · have h65 : Ratio.gtQ r (6/5) = true := gtQ_of_le (by norm_num) h32
      refine ⟨by simp [h2, h32], by simp [h2, h32], by simp [h2, h32, h65], by simp [h2, h32, h65], ?_, ?_⟩
      · rintro rfl
        exact absurd h32 (by norm_num [Ratio.gtQ])
      · rintro rfl
        simp [h2, h32]
    · by_cases h65 : Ratio.gtQ r (6/5) = true
      · refine ⟨by simp [h2, h32, h65], by simp [h2, h32, h65], by simp [h2, h32, h65], by simp [h2, h32, h65], ?_, ?_⟩
        · rintro rfl
          simp [h2, h32, h65]
        · rintro rfl
          exact absurd (by norm_num [Ratio.gtQ] : Ratio.gtQ (Ratio.fin 2) (3/2) = true) (by simp [h32])
      · refine ⟨by simp [h2, h32, h65], by simp [h2, h32, h65], by simp [h2, h32, h65], by simp [h2, h32, h65], ?_, ?_⟩
        · rintro rfl
          exact absurd (by norm_num [Ratio.gtQ] : Ratio.gtQ (Ratio.fin (3/2)) (6/5) = true) (by simp [h65])
        · rintro rfl
          exact absurd (by norm_num [Ratio.gtQ] : Ratio.gtQ (Ratio.fin 2) (6/5) = true) (by simp [h65])

/-- Every record of the breach-detail list arises as `mkDetail` of some
row of the snapshot, with a nonzero SLA duration strictly below the
handle time. -/
theorem mem_breached_details_inv (rows : List Incident) (sla : SLATable)
    (d : BreachDetail)
    (hd : d ∈ (check_sla_breach rows sla).breached_details) :
    ∃ r ∈ rows, ∃ t h s, s ≠ 0 ∧ s < h ∧ d = mkDetail r t h s := by
  have hd2 : d ∈ (rows.filterMap (evalRow sla)).filterMap Prod.snd := hd
  rw [List.mem_filterMap] at hd2
  obtain ⟨pr, hpr, hsnd⟩ := hd2
  rw [List.mem_filterMap] at hpr
  obtain ⟨r, hr, hev⟩ := hpr
  exact ⟨r, hr, evalRow_detail_inv sla r pr d hev hsnd⟩

/-- The trend table has one row per weekly bucket. -/
theorem trendRowsFrom_length (counts : List ℕ) (i : ℕ)
    (wc : List (ℤ × ℕ)) :
    (trendRowsFrom counts i wc).length = wc.length := by
  induction wc generalizing i with
  | nil => rfl
  | cons p rest ih => simp [trendRowsFrom, ih]

/-- Row `j` of the trend table built from running index `i` carries the
bucket at position `j` with the rolling average at position `i + j`. -/
theorem trendRowsFrom_get (counts : List ℕ) (i : ℕ) (wc : List (ℤ × ℕ))
    (j : ℕ) (hj : j < (trendRowsFrom counts i wc).length)
    (hj2 : j < wc.length) :
    (trendRowsFrom counts i wc).get ⟨j, hj⟩ =
      ⟨(wc.get ⟨j, hj2⟩).1, (wc.get ⟨j, hj2⟩).2, rollingAvg3 counts (i + j),
        decide (rollingAvg3 counts (i + j) * (3/2) <
          ((wc.get ⟨j, hj2⟩).2 : ℚ))⟩ := by
  induction wc generalizing i j with
  | nil => exact absurd hj2 (by simp)
  | cons p rest ih =>
    cases j with
    | zero => rfl
    | succ k =>
      have hk2 : k < rest.length := by simpa using hj2
      have hk : k < (trendRowsFrom counts (i + 1) rest).length := by
        rw [trendRowsFrom_length]
        exact hk2
      have hrec := ih (i + 1) k hk hk2
      have hstep : (trendRowsFrom counts i (p :: rest)).get ⟨k + 1, hj⟩ =
          (trendRowsFrom counts (i + 1) rest).get ⟨k, hk⟩ := rfl
      have harith : i + 1 + k = i + (k + 1) := by omega
      rw [hstep, hrec, harith]
      rfl

/-- The week column of the trend table is the key column of the buckets. -/
theorem trendRowsFrom_map_week (counts : List ℕ) (i : ℕ)
    (wc : List (ℤ × ℕ)) :
    (trendRowsFrom counts i wc).map (fun r => r.week) = wc.map Prod.fst := by
  induction wc generalizing i with
  | nil => rfl
  | cons p rest ih => simp [trendRowsFrom, ih]

/-- Projecting the first component back out of a pairing map is the
identity. -/
theorem map_fst_pairing {α β : Type} (g : α → β) (l : List α) :
    (l.map (fun w => (w, g w))).map Prod.fst = l := by
  induction l with
  | nil => rfl
  | cons a rest ih => simp [ih]

/-- The key column of the buckets is the sorted deduplication of the week
keys. -/
theorem weeklyCounts_map_fst (weeks : List ℤ) :
    (weeklyCounts weeks).map Prod.fst =
      weeks.dedup.insertionSort (· ≤ ·) := by
  unfold weeklyCounts
  rw [map_fst_pairing]

/-- Deduplication of a nonempty constant list. -/
theorem dedup_const {l : List ℤ} {w : ℤ} (hne : l ≠ [])
    (hall : ∀ x ∈ l, x = w) : l.dedup = [w] := by
  induction l with
  | nil => exact absurd rfl hne
  | cons x rest ih =>
    have hx : x = w := hall x (by simp)
    cases rest with
    | nil => rw [List.dedup_cons_of_not_mem (by simp), List.dedup_nil, hx]
    | cons y ys =>
      have hy : y = w := hall y (by simp)
      have hmem : x ∈ y :: ys := by
        rw [hx, ← hy]
        exact List.mem_cons_self y ys
      rw [List.dedup_cons_of_mem hmem]
      exact ih (by simp) (fun z hz => hall z (List.mem_cons_of_mem x hz))

/-- A snapshot all of whose incidents fall in week `w` produces the single
bucket `(w, length)`. -/
theorem weeklyCounts_const {weeks : List ℤ} {w : ℤ} (hne : weeks ≠ [])
    (hall : ∀ x ∈ weeks, x = w) :
    weeklyCounts weeks = [(w, weeks.length)] := by
  unfold weeklyCounts
  rw [dedup_const hne hall]
  have hsort : ([w] : List ℤ).insertionSort (· ≤ ·) = [w] := rfl
  rw [hsort]
  simp [List.count_eq_length.mpr (fun b hb => (hall b hb).symm)]

/-- The rolling average of the single bucket of a one-week snapshot is its
own count. -/
theorem rollingAvg3_single (n : ℕ) : rollingAvg3 [n] 0 = (n : ℚ) := by
  simp [rollingAvg3]

/-- A one-week snapshot yields one bucket whose rolling average is its own
count and which is never flagged as a spike. -/
theorem compute_weekly_trend_const {weeks : List ℤ} {w : ℤ}
    (hne : weeks ≠ []) (hall : ∀ x ∈ weeks, x = w) :
    compute_weekly_trend weeks =
      [⟨w, weeks.length, (weeks.length : ℚ), false⟩] := by
  unfold compute_weekly_trend
  rw [weeklyCounts_const hne hall]
  have havg : rollingAvg3 [weeks.length] 0 = (weeks.length : ℚ) :=
    rollingAvg3_single _
  have hspike :
      decide (rollingAvg3 [weeks.length] 0 * (3/2) <
        ((weeks.length : ℕ) : ℚ)) = false := by
    rw [havg, decide_eq_false_iff_not]
    push_neg
    have hnn : (0:ℚ) ≤ (weeks.length : ℚ) := Nat.cast_nonneg _
    linarith
  have hnn2 : (0:ℚ) ≤ (weeks.length : ℚ) := Nat.cast_nonneg _
  simp [trendRowsFrom, havg, hspike]
  all_goals linarith

/-- C1: for every breached incident, check_sla_breach assigns the severity
tier exactly by the ratio boundary table: Critical iff the breach ratio is
above 2.0, High iff it is in (1.5, 2.0], Medium iff it is in (1.2, 1.5],
and Low iff it is at most 1.2; a ratio of exactly 1.5 yields Medium and a
ratio of exactly 2.0 yields High. -/
theorem claim_C1_severity_tiers (rows : List Incident) (sla : SLATable)
    (d : BreachDetail)
    (hd : d ∈ (check_sla_breach rows sla).breached_details) :
    boundaryOK d.Severity (unroundedOf d) := by
  obtain ⟨r, hr, t, h, s, hs0, hlt, rfl⟩ :=
    mem_breached_details_inv rows sla d hd
  exact ratioSeverity_boundaryOK (breachRatioOf h s)

/-- The breach-detail list computed on the C1 scenario snapshot. -/
theorem detailsC1_eq :
    (check_sla_breach rowsC1 slaC1).breached_details = [dC1] := by
  norm_num [check_sla_breach, evalRow, mkDetail, ratioSeverity, Ratio.gtQ,
    breachRatioOf, Ratio.roundTo2R, roundTo2, roundHalfEven, rowsC1, slaC1,
    dC1, List.filterMap_cons, List.filterMap_nil]

/-- Witness for C1: the Critical breach of the scenario snapshot (impact 3,
urgency 1, handle time 3 h against a 1 h SLA, ratio 3). -/
theorem claim_C1_witness : boundaryOK dC1.Severity (unroundedOf dC1) := by
  have hmem : dC1 ∈ (check_sla_breach rowsC1 slaC1).breached_details := by
    rw [detailsC1_eq]
    exact List.mem_cons_self dC1 []
  exact claim_C1_severity_tiers rowsC1 slaC1 dC1 hmem

/-- C2: check_sla_breach counts all incidents passed in, counts as
breaches only the non-exempt incidents whose handle time exceeds the
applicable SLA duration (incidents whose pair is absent from the table are
never eligible), computes the percentage as breaches over all incidents
times 100 with 0 for the empty snapshot, and the breach count never
exceeds the incident count. -/
theorem claim_C2_sla_totals (rows : List Incident) (sla : SLATable) :
    (check_sla_breach rows sla).total_incidents_analyzed = rows.length
    ∧ (check_sla_breach rows sla).total_sla_breaches =
        rows.countP (fun r => slaEligible sla r && slaExceeded sla r)
    ∧ (∀ r ∈ rows, sla (r.Impact_enc, r.Urgency_enc) = none →
        slaEligible sla r = false)
    ∧ (rows ≠ [] → (check_sla_breach rows sla).sla_breach_percentage =
        ((check_sla_breach rows sla).total_sla_breaches : ℚ) /
          ((check_sla_breach rows sla).total_incidents_analyzed : ℚ) * 100)
    ∧ (rows = [] → (check_sla_breach rows sla).sla_breach_percentage = 0)
    ∧ (check_sla_breach rows sla).total_sla_breaches ≤
        (check_sla_breach rows sla).total_incidents_analyzed := by
  refine ⟨rfl, check_total_breaches rows sla, ?_, ?_, ?_, ?_⟩
  · intro r hr hnone
    simp [slaEligible, hnone]
  · intro hne
    have hpos : 0 < rows.length := List.length_pos.mpr hne
    simp only [check_sla_breach]
    rw [if_pos hpos]
  · rintro rfl
    rfl
  · rw [check_total_breaches rows sla]
    exact le_trans (List.countP_le_length _) (le_of_eq rfl)

/-- Witness for C2: on the two-incident snapshot, the incident whose
(impact, urgency) pair is absent from the table is not eligible. -/
theorem claim_C2_witness : slaEligible slaC2 rC2exempt = false :=
  (claim_C2_sla_totals rowsC2 slaC2).2.2.1 rC2exempt
    (List.mem_cons_self rC2exempt [rC2breach]) rfl

/-- C5 (code bug): an incident whose pair maps to a defined SLA duration
of zero hours is silently skipped by the guard of line 100 (a zero
timedelta is falsy in Python), so it is treated exactly like an absent
entry: no indicator, no detail, no breach — the infinite-ratio guard of
line 106 is unreachable for it. -/
theorem claim_C5_zero_sla_exempt :
    (check_sla_breach [rowC5] slaC5).breaches = []
    ∧ (check_sla_breach [rowC5] slaC5).breached_details = []
    ∧ (check_sla_breach [rowC5] slaC5).total_sla_breaches = 0
    ∧ (check_sla_breach [rowC5] slaC5).total_incidents_analyzed = 1 := by
  refine ⟨?_, ?_, ?_, rfl⟩ <;>
    norm_num [check_sla_breach, evalRow, rowC5, slaC5,
      List.filterMap_cons, List.filterMap_nil]

/-- The breach-detail list computed on the C6 snapshot. -/
theorem detailsC6_eq :
    (check_sla_breach rowsC6 slaC6).breached_details = [dC6] := by
  norm_num [check_sla_breach, evalRow, mkDetail, ratioSeverity, Ratio.gtQ,
    breachRatioOf, Ratio.roundTo2R, roundTo2, roundHalfEven, rowsC6, slaC6,
    dC6, List.filterMap_cons, List.filterMap_nil]

/-- C6 counterexample: on the snapshot with handle time 1.004 h against a
1 h SLA, the recorded (two-decimal rounded) Breach_Ratio field of the
emitted breach record is exactly 1.0, not strictly greater than 1.0. -/
theorem claim_C6_counterexample :
    ((check_sla_breach rowsC6 slaC6).breached_details.all
        (fun d => Ratio.gtQ d.Breach_Ratio 1)) = false
    ∧ (check_sla_breach rowsC6 slaC6).breached_details ≠ [] := by
  rw [detailsC6_eq]
  constructor
  · simp [dC6, Ratio.gtQ]
  · simp

/-- C6 amended: for every breach record, the unrounded breach ratio is
strictly greater than 1.0, and the recorded Breach_Ratio field (rounded to
two decimals) is at least 1.0 — it can equal exactly 1.0. -/
theorem claim_C6_recorded_ge_one (rows : List Incident) (sla : SLATable)
    (d : BreachDetail)
    (hd : d ∈ (check_sla_breach rows sla).breached_details) :
    Ratio.gtQ (unroundedOf d) 1 = true ∧ Ratio.geQ d.Breach_Ratio 1 = true := by
  obtain ⟨r, hr, t, h, s, hs0, hlt, rfl⟩ :=
    mem_breached_details_inv rows sla d hd
  by_cases hpos : 0 < s
  · have hratio : unroundedOf (mkDetail r t h s) = .fin (h / s) := by
      simp [unroundedOf, mkDetail, breachRatioOf, hpos]
    have hgt : (1:ℚ) < h / s := (one_lt_div hpos).mpr hlt
    constructor
    · rw [hratio]
      simp only [Ratio.gtQ, decide_eq_true_eq]
      exact hgt
    · have hbr : (mkDetail r t h s).Breach_Ratio = .fin (roundTo2 (h / s)) := by
        simp [mkDetail, breachRatioOf, hpos, Ratio.roundTo2R]
      rw [hbr]
      simp only [Ratio.geQ, decide_eq_true_eq]
      exact one_le_roundTo2 hgt
  · have hratio : unroundedOf (mkDetail r t h s) = .inf := by
      simp [unroundedOf, mkDetail, breachRatioOf, hpos]
    have hbr : (mkDetail r t h s).Breach_Ratio = .inf := by
      simp [mkDetail, breachRatioOf, hpos, Ratio.roundTo2R]
    rw [hratio, hbr]
    exact ⟨rfl, rfl⟩

/-- Witness for the amended C6 at the concrete breach whose recorded ratio
is exactly 1.0. -/
theorem claim_C6_witness :
    Ratio.gtQ (unroundedOf dC6) 1 = true
    ∧ Ratio.geQ dC6.Breach_Ratio 1 = true := by
  have hmem : dC6 ∈ (check_sla_breach rowsC6 slaC6).breached_details := by
    rw [detailsC6_eq]
    exact List.mem_cons_self dC6 []
  exact claim_C6_recorded_ge_one rowsC6 slaC6 dC6 hmem

/-- C3 (code bug): a single-incident snapshot — here one that matches the
first rule pattern and so is due a flag — makes
detect_priority_inconsistencies raise the IndexError of the debug
statement instead of producing the flag. -/
theorem claim_C3_singleton_raises :
    detect_priority_inconsistencies [row312] =
      Except.error "single positional indexer is out-of-bounds"
    ∧ (flagRow row312).isSome = true := ⟨rfl, rfl⟩

/-- C9 (code bug): the empty snapshot and two-incident snapshots complete
normally, but any single-incident snapshot raises the IndexError of the
debug statement, contradicting the never-an-error contract. -/
theorem claim_C9_single_row_raises :
    detect_priority_inconsistencies [rowC9] =
      Except.error "single positional indexer is out-of-bounds"
    ∧ detect_priority_inconsistencies ([] : List Incident) = Except.ok []
    ∧ detect_priority_inconsistencies [rowC9, rowC9] = Except.ok [] :=
  ⟨rfl, rfl, rfl⟩

/-- C7: whenever detect_priority_inconsistencies returns normally, every
record it produced has severity Low; indeed any row the loop body flags
has (impact, urgency) equal to (3, 1) or (1, 3), so the High branch
(3, 3) and the Medium branches (3, 2), (2, 3) of the secondary severity
rule are unreachable; in particular the row with impact 3, urgency 1,
priority 2 is flagged with severity Low. -/
theorem claim_C7_low_only (rows : List Incident) (out : List Inconsistency)
    (hout : detect_priority_inconsistencies rows = Except.ok out) :
    (∀ inc ∈ out, inc.Severity = "Low")
    ∧ (∀ row : Incident, ∀ inc2 : Inconsistency, flagRow row = some inc2 →
        ((row.Impact_enc = 3 ∧ row.Urgency_enc = 1) ∨
          (row.Impact_enc = 1 ∧ row.Urgency_enc = 3))
        ∧ inc2.Severity = "Low")
    ∧ (flagRow row312).map (fun inc => inc.Severity) = some "Low" := by
  have hflag : ∀ row : Incident, ∀ inc2 : Inconsistency,
      flagRow row = some inc2 →
      ((row.Impact_enc = 3 ∧ row.Urgency_enc = 1) ∨
        (row.Impact_enc = 1 ∧ row.Urgency_enc = 3))
      ∧ inc2.Severity = "Low" := by
    intro row inc2 hf
    unfold flagRow at hf
    split_ifs at hf with hcond
    · rcases hcond with ⟨hi, hu, hp⟩ | ⟨hi, hu, hp⟩
      · refine ⟨Or.inl ⟨hi, hu⟩, ?_⟩
        rw [← Option.some_inj.mp hf]
        simp [inconsistencySeverity, hi, hu]
      · refine ⟨Or.inr ⟨hi, hu⟩, ?_⟩
        rw [← Option.some_inj.mp hf]
        simp [inconsistencySeverity, hi, hu]
  refine ⟨?_, hflag, rfl⟩
  intro inc hmem
  have hout2 : out = rows.filterMap flagRow := by
    unfold detect_priority_inconsistencies at hout
    split_ifs at hout
    injection hout with hok
    exact hok.symm
  rw [hout2, List.mem_filterMap] at hmem
  obtain ⟨row, hrow, hf⟩ := hmem
  exact (hflag row inc hf).2

/-- Witness for C7: on the two-incident snapshot containing the
(3, 1, 2) row, the produced record has severity Low. -/
theorem claim_C7_witness : incC7.Severity = "Low" :=
  (claim_C7_low_only rowsC7 (rowsC7.filterMap flagRow) rfl).1 incC7 (by decide)

/-- C4: for every bucket of the weekly trend, the spike flag holds iff the
count strictly exceeds 1.5 times the rolling average; the rolling average
of bucket `i` is the mean (sum over size) of the window of the bucket and
up to two preceding buckets; buckets are in chronological order; and a
snapshot spanning a single week yields one bucket whose rolling average is
its own count and which is never flagged. -/
theorem claim_C4_spike_rule (weeks : List ℤ) (i : ℕ)
    (hi : i < (compute_weekly_trend weeks).length) :
    (((compute_weekly_trend weeks).get ⟨i, hi⟩).spike = true ↔
        (3/2 : ℚ) * ((compute_weekly_trend weeks).get ⟨i, hi⟩).rolling_avg <
          (((compute_weekly_trend weeks).get ⟨i, hi⟩).incident_count : ℚ))
    ∧ ((compute_weekly_trend weeks).get ⟨i, hi⟩).rolling_avg =
        (((((weeklyCounts weeks).map Prod.snd).take (i + 1)).drop (i - 2)).sum : ℚ) /
          ((min (i + 1) 3 : ℕ) : ℚ)
    ∧ List.Sorted (· ≤ ·) ((compute_weekly_trend weeks).map (fun r => r.week))
    ∧ (∀ w : ℤ, weeks ≠ [] → (∀ x ∈ weeks, x = w) →
        compute_weekly_trend weeks =
          [⟨w, weeks.length, (weeks.length : ℚ), false⟩]) := by
  have hlen : (compute_weekly_trend weeks).length =
      (weeklyCounts weeks).length := by
    simp only [compute_weekly_trend]
    exact trendRowsFrom_length _ _ _
  have hi2 : i < (weeklyCounts weeks).length := by
    rw [← hlen]
    exact hi
  have hrow : (compute_weekly_trend weeks).get ⟨i, hi⟩ =
      ⟨((weeklyCounts weeks).get ⟨i, hi2⟩).1,
        ((weeklyCounts weeks).get ⟨i, hi2⟩).2,
        rollingAvg3 ((weeklyCounts weeks).map Prod.snd) (0 + i),
        decide (rollingAvg3 ((weeklyCounts weeks).map Prod.snd) (0 + i) * (3/2) <
          (((weeklyCounts weeks).get ⟨i, hi2⟩).2 : ℚ))⟩ :=
    trendRowsFrom_get ((weeklyCounts weeks).map Prod.snd) 0
      (weeklyCounts weeks) i hi hi2
  rw [Nat.zero_add] at hrow
  refine ⟨?_, ?_, ?_, ?_⟩
  · rw [hrow]
    simp only [decide_eq_true_eq]
    constructor
    · intro hlt2
      linarith
    · intro hlt2
      linarith
  · rw [hrow]
    show rollingAvg3 ((weeklyCounts weeks).map Prod.snd) i = _
    have hcl : ((weeklyCounts weeks).map Prod.snd).length =
        (weeklyCounts weeks).length := List.length_map _ _
    have hwin :
        ((((weeklyCounts weeks).map Prod.snd).take (i + 1)).drop (i - 2)).length =
          min (i + 1) 3 := by
      rw [List.length_drop, List.length_take, hcl]
      omega
    simp only [rollingAvg3]
    rw [hwin]
  · have hmw : (compute_weekly_trend weeks).map (fun r => r.week) =
        weeks.dedup.insertionSort (· ≤ ·) := by
      simp only [compute_weekly_trend]
      rw [trendRowsFrom_map_week, weeklyCounts_map_fst]
    rw [hmw]
    exact List.sorted_insertionSort _ _
  · intro w hne hall
    exact compute_weekly_trend_const hne hall

/-- Witness for C4: a snapshot of three incidents in one calendar week
yields the single bucket with rolling average 3 and no spike. -/
theorem claim_C4_witness :
    compute_weekly_trend [5, 5, 5] = [⟨5, 3, (3 : ℚ), false⟩] := by
  have h := (claim_C4_spike_rule [5, 5, 5] 0 (by decide)).2.2.2 5
    (by decide) (by decide)
  simpa using h

/-- The weekly buckets of the C8 scenario snapshot: counts 10, 12, 11, 40
in chronological order. -/
theorem weeklyCountsC8_eq :
    weeklyCounts wksC8 = [(0, 10), (1, 12), (2, 11), (3, 40)] := by decide

/-- C8 counterexample: on the scenario snapshot the rolling-average column
is not the claimed 10, 11, 11, 11 — the fourth window is the mean of
(12, 11, 40), which is 21, because the window includes the current
bucket. -/
theorem claim_C8_counterexample :
    ¬ (compute_weekly_trend wksC8).map (fun r => r.rolling_avg) =
      [10, 11, 11, 11] := by
  simp only [compute_weekly_trend, weeklyCountsC8_eq]
  norm_num [trendRowsFrom, rollingAvg3]

/-- C8 amended: the counts are 10, 12, 11, 40, the rolling averages are
10, 11, 11, 21, week 4 is flagged as a spike (40 > 31.5), and weeks 1-3
are not flagged. -/
theorem claim_C8_amended :
    (compute_weekly_trend wksC8).map
        (fun r => (r.incident_count, r.rolling_avg, r.spike)) =
      [(10, 10, false), (12, 11, false), (11, 11, false), (40, 21, true)] := by
  simp only [compute_weekly_trend, weeklyCountsC8_eq]
  norm_num [trendRowsFrom, rollingAvg3]

/-- C10: sla_breach_summary reports the length of the indicator list, the
number of entries whose breach flag is true, and their quotient times 100
(0 on the empty list); composed with check_sla_breach its denominator is
the number of non-exempt incidents only, so whenever exempt incidents
exist and at least one breach occurred the two percentages differ. -/
theorem claim_C10_summary (l : List BreachIndicator) (rows : List Incident)
    (sla : SLATable) :
    (sla_breach_summary l).total_incidents = l.length
    ∧ (sla_breach_summary l).total_breaches = l.countP (fun b => b.breach)
    ∧ (l = [] → (sla_breach_summary l).breach_percentage = 0)
    ∧ (l ≠ [] → (sla_breach_summary l).breach_percentage =
        (l.countP (fun b => b.breach) : ℚ) / (l.length : ℚ) * 100)
    ∧ (sla_breach_summary (check_sla_breach rows sla).breaches).total_incidents =
        rows.countP (slaEligible sla)
    ∧ (rows.countP (slaEligible sla) < rows.length →
        0 < (check_sla_breach rows sla).total_sla_breaches →
        (sla_breach_summary
            (check_sla_breach rows sla).breaches).breach_percentage ≠
          (check_sla_breach rows sla).sla_breach_percentage) := by
  refine ⟨rfl, rfl, ?_, ?_, check_breaches_length rows sla, ?_⟩
  · rintro rfl
    rfl
  · intro hne
    have hpos : 0 < l.length := List.length_pos.mpr hne
    simp only [sla_breach_summary]
    rw [if_pos hpos]
  · intro hlt hbpos
    have hn := check_breaches_length rows sla
    have hcb := check_countP_breach rows sla
    have hble : (check_sla_breach rows sla).total_sla_breaches ≤
        rows.countP (slaEligible sla) := by
      rw [check_total_breaches rows sla]
      refine List.countP_mono_left ?_
      intro a ha hpa
      have hpa2 : slaEligible sla a = true ∧ slaExceeded sla a = true := by
        simpa using hpa
      exact hpa2.1
    have hnpos : 0 < rows.countP (slaEligible sla) :=
      lt_of_lt_of_le hbpos hble
    have htpos : 0 < rows.length := lt_of_le_of_lt (Nat.zero_le _) hlt
    have hsum : (sla_breach_summary
        (check_sla_breach rows sla).breaches).breach_percentage =
        ((check_sla_breach rows sla).total_sla_breaches : ℚ) /
          (rows.countP (slaEligible sla) : ℚ) * 100 := by
      simp only [sla_breach_summary]
      rw [hcb, hn, if_pos hnpos]
    have hrep : (check_sla_breach rows sla).sla_breach_percentage =
        ((check_sla_breach rows sla).total_sla_breaches : ℚ) /
          (rows.length : ℚ) * 100 := by
      simp only [check_sla_breach]
      rw [if_pos htpos]
    rw [hsum, hrep]
    have hbq : (0:ℚ) < ((check_sla_breach rows sla).total_sla_breaches : ℚ) := by
      exact_mod_cast hbpos
    have hnq : (0:ℚ) < (rows.countP (slaEligible sla) : ℚ) := by
      exact_mod_cast hnpos
    have hltq : ((rows.countP (slaEligible sla)) : ℚ) < (rows.length : ℚ) := by
      exact_mod_cast hlt
    have hstep : ((check_sla_breach rows sla).total_sla_breaches : ℚ) /
        (rows.length : ℚ) <
        ((check_sla_breach rows sla).total_sla_breaches : ℚ) /
          (rows.countP (slaEligible sla) : ℚ) :=
      div_lt_div_of_pos_left hbq hnq hltq
    intro heq
    linarith

/-- Witness for C10: on the snapshot with one exempt and one breached
incident the summary percentage (100) differs from the report percentage
(50). -/
theorem claim_C10_witness :
    (sla_breach_summary
        (check_sla_breach rowsC2 slaC2).breaches).breach_percentage ≠
      (check_sla_breach rowsC2 slaC2).sla_breach_percentage := by
  refine (claim_C10_summary [] rowsC2 slaC2).2.2.2.2.2 ?_ ?_
  · show rowsC2.countP (slaEligible slaC2) < rowsC2.length
    norm_num [rowsC2, rC2exempt, rC2breach, slaC2, slaEligible,
      List.countP_cons, List.countP_nil]
  · show 0 < (check_sla_breach rowsC2 slaC2).total_sla_breaches
    norm_num [check_sla_breach, evalRow, rowsC2, rC2exempt, rC2breach, slaC2,
      List.filterMap_cons, List.filterMap_nil]
